import Mathlib

/-!
Shallow embedding of the workflow engine in `app/engine.py` (with the data
model of `app/model.py` and the node registry of `app/registry.py`).

Modelling choices:
* Python dicts become association lists with first-match lookup (keys of a
  Python dict are unique, so first-match lookup agrees with dict access).
* The open-ended run state `Dict[str, Any]` becomes an association list from
  `String` to a closed `Value` variant (booleans, integers, strings, and an
  explicit `None`); `state.get(k, None)` becomes `stateGet`, which returns
  `Value.vNone` both for an absent key and for a key bound to `None`,
  exactly as in Python.
* A node capability (`registry.NODE_REGISTRY` entry) is a pure function
  `State → Except String State`: returning `.ok s'` covers both the
  return-a-dict pattern and in-place mutation (extensionally the state after
  the call), and `.error msg` models the capability raising an exception.
* `EngineError` messages become the structured `EngineErr` type, each
  constructor carrying the data interpolated into the corresponding Python
  message (for example the configured iteration limit).
* The `while` loop of `run_graph` becomes the fuel-indexed `runFrom`:
  `remaining` counts the iterations still allowed before the
  `iter_count > max_iterations` guard fires, so the loop entered with
  `remaining = max_iterations` performs at most `max_iterations` real
  iterations and then fails, exactly like the Python counter.
  The `try/except` containment of `run_graph` is the fact that `runFrom`
  returns a `failed` `RunResult` (with the accumulated state and log)
  instead of propagating the error.
-/

namespace AIWorkflow

/-- Closed variant type for values stored in the shared run state. -/
inductive Value where
  | vBool : Bool → Value
  | vInt : Int → Value
  | vStr : String → Value
  | vNone : Value
deriving DecidableEq

/-- The shared run state: Python `Dict[str, Any]` as an association list. -/
abbrev State := List (String × Value)

/-- Python `state.get(k, None)`: an absent key and a key explicitly bound to
`None` both yield `Value.vNone`. -/
def stateGet (s : State) (k : String) : Value :=
  match s.lookup k with
  | some v => v
  | none => Value.vNone

/-- Python `str(v)` on the values of the closed variant. -/
def strOfValue : Value → String
  | .vBool true => "True"
  | .vBool false => "False"
  | .vInt n => toString n
  | .vStr t => t
  | .vNone => "None"

/-- A conditional map or linear edge map: `Dict[str, Optional[str]]`. -/
abbrev CondMap := List (String × Option String)

/-- Python `m.get(k)` on a `Dict[str, Optional[str]]`: absent keys and keys
mapped to `null` are both `none`. -/
def dictGet (m : CondMap) (k : String) : Option String :=
  match m.lookup k with
  | some v => v
  | none => none

/-- Python `k in m`: key membership, regardless of the mapped value. -/
def condHasKey (m : CondMap) (k : String) : Bool :=
  (m.lookup k).isSome

/-- A node capability: state transformer that may raise. -/
abbrev NodeFn := State → Except String State

/-- Structured counterpart of the `EngineError` messages raised in
`app/engine.py`; each constructor carries the data interpolated into the
corresponding Python message. -/
inductive EngineErr where
  | unknownNodes : List String → EngineErr
  | invalidEntryNode : String → EngineErr
  | graphNotFound : String → EngineErr
  | runNotFound : String → EngineErr
  | maxIterationsExceeded : Nat → EngineErr
  | nodeNotFound : String → EngineErr
  | missingDecision : String → EngineErr
  | nodeRaised : String → EngineErr
deriving DecidableEq

/-- Internal representation of a stored graph (`model.Graph`). -/
structure Graph where
  id : String
  name : String
  entry_node : String
  nodes : List String
  edges : CondMap
  conditional_edges : List (String × CondMap)
deriving DecidableEq

/-- Payload of `POST /graph/create` (`model.GraphCreateRequest`). -/
structure GraphCreateRequest where
  name : String
  entry_node : String
  nodes : List String
  edges : CondMap
  conditional_edges : Option (List (String × CondMap))

/-- Run status (`model.RunStatus`). -/
inductive RunStatus where
  | pending
  | running
  | completed
  | failed
deriving DecidableEq

/-- Outcome of one run: the fields of the `Run` record that `run_graph`
finalizes and of the `GraphRunResponse` built from it (the response carries
`run_id`, `final_state`, `execution_log`, `status`; the `error` string lives
on the stored `Run`). -/
structure RunResult where
  status : RunStatus
  final_state : State
  execution_log : List String
  error : Option EngineErr
deriving DecidableEq

/-- The engine's stores (`WorkflowEngine.node_registry` / `.graphs`). The run
store records each `Run` keyed by id; run ids play no part in the traversal
semantics, so the embedding keeps the produced `RunResult` instead. -/
structure Engine where
  node_registry : List (String × NodeFn)
  graphs : List (String × Graph)

/-- Lines 38-64 of `engine.py` (`WorkflowEngine.create_graph`): reject node
names missing from the registry (all of them at once), normalize the
optional conditional map, build the graph, check the entry node, and store.
`freshId` stands for the generated `graph_{uuid4().hex}`. Returns the
result together with the (possibly updated) engine. -/
def create_graph (e : Engine) (freshId : String) (req : GraphCreateRequest) :
    Except EngineErr Graph × Engine :=
  let missing := req.nodes.filter (fun n => (e.node_registry.lookup n).isNone)
  if missing = [] then
    let g : Graph :=
      { id := freshId, name := req.name, entry_node := req.entry_node,
        nodes := req.nodes, edges := req.edges,
        conditional_edges := req.conditional_edges.getD [] }
    if req.entry_node ∈ req.nodes then
      (Except.ok g, { e with graphs := (freshId, g) :: e.graphs })
    else
      (Except.error (EngineErr.invalidEntryNode req.entry_node), e)
  else
    (Except.error (EngineErr.unknownNodes missing), e)

/-- Lines 66-70 of `engine.py` (`WorkflowEngine.get_graph`). -/
def get_graph (e : Engine) (graph_id : String) : Except EngineErr Graph :=
  match e.graphs.lookup graph_id with
  | some g => Except.ok g
  | none => Except.error (EngineErr.graphNotFound graph_id)

/-- Lines 116-129 of `engine.py`: normalize the decision value read from
`state[current_node]` into a lookup key. Booleans map to the literal keys
`"true"`/`"false"`; a missing value falls back to the `"default"` key when
present and otherwise raises the missing-decision error; every other value
is stringified. -/
def resolveKey (cur : String) (m : CondMap) (v : Value) : Except EngineErr String :=
  match v with
  | .vBool true => Except.ok "true"
  | .vBool false => Except.ok "false"
  | .vNone =>
      if condHasKey m "default" then Except.ok "default"
      else Except.error (EngineErr.missingDecision cur)
  | other => Except.ok (strOfValue other)

/-- Lines 131-134 of `engine.py`: `next_node = cond_map.get(key)`, then if
that is `None` and a `"default"` key exists, `cond_map.get("default")`. -/
def condSelect (m : CondMap) (key : String) : Option String :=
  match dictGet m key with
  | some n => some n
  | none => if condHasKey m "default" then dictGet m "default" else none

/-- Lines 111-137 of `engine.py`: full conditional-edge resolution for node
`cur` with conditional map `m` against the post-invocation state `s`. -/
def resolveCond (cur : String) (m : CondMap) (s : State) :
    Except EngineErr (Option String) :=
  match resolveKey cur m (stateGet s cur) with
  | Except.error err => Except.error err
  | Except.ok key => Except.ok (condSelect m key)

/-- One iteration outcome of the `while` loop of `run_graph`. -/
inductive StepOut where
  | next : Nat → Option String → State → List String → StepOut
  | done : State → List String → StepOut
  | fail : EngineErr → State → List String → StepOut

/-- One iteration of the `while current_node is not None` loop (lines 91-143
of `engine.py`), on the configuration `(remaining, current, state, log)`:
exit when `current` is `none`; fail with the iteration-limit error when the
budget is exhausted (`iter_count` would exceed `maxIter`); otherwise append
the node to the log, dispatch its capability, and resolve the next node via
the conditional map (if the node is listed there) or the linear edges. -/
def stepOnce (reg : List (String × NodeFn)) (g : Graph) (maxIter : Nat) :
    Nat → Option String → State → List String → StepOut
  | _, none, s, log => StepOut.done s log
  | 0, some _, s, log =>
      StepOut.fail (EngineErr.maxIterationsExceeded maxIter) s log
  | remaining + 1, some cur, s, log =>
      match reg.lookup cur with
      | none => StepOut.fail (EngineErr.nodeNotFound cur) s (log ++ [cur])
      | some f =>
          match f s with
          | Except.error msg =>
              StepOut.fail (EngineErr.nodeRaised msg) s (log ++ [cur])
          | Except.ok s' =>
              match g.conditional_edges.lookup cur with
              | some m =>
                  match resolveCond cur m s' with
                  | Except.error err => StepOut.fail err s' (log ++ [cur])
                  | Except.ok nxt => StepOut.next remaining nxt s' (log ++ [cur])
              | none => StepOut.next remaining (dictGet g.edges cur) s' (log ++ [cur])

/-- The loop of `run_graph` run to termination (lines 91-143 of `engine.py`
together with the finalization at lines 146-168): exit with a `completed`
run when `current` becomes `none`, fail with the iteration-limit error when
the budget runs out, and otherwise perform one iteration (append to the log,
dispatch the capability, resolve the next node) and continue. The `except`
block of `run_graph` is the `failed` branch: the error is captured on the
run and the accumulated state and log are returned as they stand. -/
def runFrom (reg : List (String × NodeFn)) (g : Graph) (maxIter : Nat) :
    Nat → Option String → State → List String → RunResult
  | _, none, s, log =>
      { status := RunStatus.completed, final_state := s,
        execution_log := log, error := none }
  | 0, some _, s, log =>
      { status := RunStatus.failed, final_state := s, execution_log := log,
        error := some (EngineErr.maxIterationsExceeded maxIter) }
  | remaining + 1, some cur, s, log =>
      match reg.lookup cur with
      | none =>
          { status := RunStatus.failed, final_state := s,
            execution_log := log ++ [cur],
            error := some (EngineErr.nodeNotFound cur) }
      | some f =>
          match f s with
          | Except.error msg =>
              { status := RunStatus.failed, final_state := s,
                execution_log := log ++ [cur],
                error := some (EngineErr.nodeRaised msg) }
          | Except.ok s' =>
              match g.conditional_edges.lookup cur with
              | some m =>
                  match resolveCond cur m s' with
                  | Except.error err =>
                      { status := RunStatus.failed, final_state := s',
                        execution_log := log ++ [cur], error := some err }
                  | Except.ok nxt =>
                      runFrom reg g maxIter remaining nxt s' (log ++ [cur])
              | none =>
                  runFrom reg g maxIter remaining (dictGet g.edges cur) s'
                    (log ++ [cur])

/-- Lines 75-168 of `engine.py` (`WorkflowEngine.run_graph`): resolve the
graph (this lookup happens before the `try` block, so an unknown graph id
propagates to the caller), then drive the traversal from the entry node over
a copy of the initial state with an empty log. -/
def run_graph (e : Engine) (graph_id : String) (initial_state : State)
    (max_iterations : Nat) : Except EngineErr RunResult :=
  match get_graph e graph_id with
  | Except.error err => Except.error err
  | Except.ok g =>
      Except.ok (runFrom e.node_registry g max_iterations max_iterations
        (some g.entry_node) initial_state [])

/-- Iterate `stepOnce` for exactly `k` continuing iterations, returning the
configuration reached, or `none` when the loop exits or fails earlier. -/
def iterSteps (reg : List (String × NodeFn)) (g : Graph) (maxIter : Nat) :
    Nat → Nat → Option String → State → List String →
    Option (Nat × Option String × State × List String)
  | 0, remaining, cur, s, log => some (remaining, cur, s, log)
  | k + 1, remaining, cur, s, log =>
      match stepOnce reg g maxIter remaining cur s log with
      | StepOut.next remaining' cur' s' log' =>
          iterSteps reg g maxIter k remaining' cur' s' log'
      | _ => none

/-- A node name whose capability is registered and never raises. -/
def NodeOk (reg : List (String × NodeFn)) (n : String) : Prop :=
  ∃ f, reg.lookup n = some f ∧ ∀ s, ∃ s', f s = Except.ok s'

/-- A non-empty chain of nodes linked by linear edges: each node is
registered with a non-raising capability, is not listed in the conditional
map, and its `edges` entry points to the next node of the chain; the last
node has no outgoing edge (no `edges` entry or an explicit `null`). -/
inductive IsLinearChain (reg : List (String × NodeFn)) (g : Graph) :
    List String → Prop where
  | single (n : String) : NodeOk reg n → g.conditional_edges.lookup n = none →
      dictGet g.edges n = none → IsLinearChain reg g [n]
  | cons (n m : String) (rest : List String) : NodeOk reg n →
      g.conditional_edges.lookup n = none → dictGet g.edges n = some m →
      IsLinearChain reg g (m :: rest) → IsLinearChain reg g (n :: m :: rest)

/-! Concrete fixtures: small registries and graphs used to instantiate the
general theorems below on executable inputs. -/

/-- Identity node capability. -/
def fnId : NodeFn := fun s => Except.ok s

/-- Node capability that records the decision `"stop"` under its own name
`"check"`. -/
def fnSetStop : NodeFn := fun s => Except.ok (("check", Value.vStr "stop") :: s)

/-- Node capability that records the decision `"loop"` under its own name
`"check"`. -/
def fnSetLoop : NodeFn := fun s => Except.ok (("check", Value.vStr "loop") :: s)

/-- Node capability that raises. -/
def fnBoom : NodeFn := fun _ => Except.error "boom"

/-- Node capability that sets `done = True`. -/
def fnSetDone : NodeFn := fun s => Except.ok (("done", Value.vBool true) :: s)

/-- Conditional graph whose map sends the decision `"stop"` explicitly to
`null` and also carries a `"default"` entry. -/
def graphNull : Graph :=
  { id := "g1", name := "null-vs-default", entry_node := "check",
    nodes := ["check", "other"], edges := [],
    conditional_edges := [("check", [("stop", none), ("default", some "other")])] }

/-- Engine holding `graphNull`. -/
def engNull : Engine :=
  { node_registry := [("check", fnSetStop), ("other", fnId)],
    graphs := [("g1", graphNull)] }

/-- Single-node graph whose capability raises. -/
def graphBoom : Graph :=
  { id := "g2", name := "boom", entry_node := "X", nodes := ["X"],
    edges := [], conditional_edges := [] }

/-- Engine holding `graphBoom`. -/
def engBoom : Engine :=
  { node_registry := [("X", fnBoom)], graphs := [("g2", graphBoom)] }

/-- Conditional graph that always routes back to itself. -/
def graphLoop : Graph :=
  { id := "g3", name := "loop", entry_node := "check", nodes := ["check"],
    edges := [], conditional_edges := [("check", [("loop", some "check")])] }

/-- Engine holding `graphLoop`. -/
def engLoop : Engine :=
  { node_registry := [("check", fnSetLoop)], graphs := [("g3", graphLoop)] }

/-- Conditional graph whose node never sets its decision key; the map has no
`"default"` entry. -/
def graphNoDec : Graph :=
  { id := "g4", name := "no-decision", entry_node := "c", nodes := ["c"],
    edges := [], conditional_edges := [("c", [("x", some "y")])] }

/-- Conditional graph whose node never sets its decision key; the map has a
`"default"` entry. -/
def graphDefDec : Graph :=
  { id := "g5", name := "default-decision", entry_node := "c", nodes := ["c"],
    edges := [], conditional_edges := [("c", [("x", some "y"), ("default", none)])] }

/-- Conditional map containing a stringified-Python-boolean key `"True"`
alongside the literal keys `"true"`/`"false"`. -/
def mapBool : CondMap :=
  [("True", some "wrong"), ("true", some "right"), ("false", some "also-wrong")]

/-- Two-node linear graph: `A → B`, `B` stops (no outgoing edge). -/
def graphAB : Graph :=
  { id := "g6", name := "linear", entry_node := "A", nodes := ["A", "B"],
    edges := [("A", some "B")], conditional_edges := [] }

/-- Engine holding `graphAB`. -/
def engAB : Engine :=
  { node_registry := [("A", fnId), ("B", fnSetDone)], graphs := [("g6", graphAB)] }

/-- A valid creation request against `engAB`'s registry. -/
def reqAB : GraphCreateRequest :=
  { name := "linear", entry_node := "A", nodes := ["A", "B"],
    edges := [("A", some "B")],
    conditional_edges := some [("B", [("t", none)])] }

/-- A creation request naming two unregistered nodes and a bad entry node. -/
def reqBad : GraphCreateRequest :=
  { name := "bad", entry_node := "Z", nodes := ["A", "X", "Y"],
    edges := [], conditional_edges := none }

/-! Helper lemmas about the embedded engine. -/

/-- Reading a key bound to an explicit `None` yields `vNone`. -/
theorem stateGet_of_lookup_none {s : State} {k : String} (h : s.lookup k = none) :
    stateGet s k = Value.vNone := by
  simp [stateGet, h]

/-- Reading a bound key yields its value. -/
theorem stateGet_of_lookup_some {s : State} {k : String} {v : Value}
    (h : s.lookup k = some v) : stateGet s k = v := by
  simp [stateGet, h]

/-- When the conditional map has a `"default"` key, looking the key
`"default"` up through lines 131-134 is plain `cond_map.get("default")`. -/
theorem condSelect_default (m : CondMap) (hk : condHasKey m "default" = true) :
    condSelect m "default" = dictGet m "default" := by
  cases h : dictGet m "default" with
  | none => simp [condSelect, h, hk]
  | some n => simp [condSelect, h]

/-- The traversal loop only ever appends to the log it is given. -/
theorem runFrom_log_extends (reg : List (String × NodeFn)) (g : Graph)
    (maxIter : Nat) :
    ∀ remaining cur s log, ∃ t,
      (runFrom reg g maxIter remaining cur s log).execution_log = log ++ t := by
  intro remaining
  induction remaining with
  | zero =>
    intro cur s log
    cases cur with
    | none => exact ⟨[], by simp [runFrom]⟩
    | some c => exact ⟨[], by simp [runFrom]⟩
  | succ n ih =>
    intro cur s log
    cases cur with
    | none => exact ⟨[], by simp [runFrom]⟩
    | some c =>
      simp only [runFrom]
      cases hl : reg.lookup c with
      | none => exact ⟨[c], by simp⟩
      | some f =>
        cases hf : f s with
        | error msg => exact ⟨[c], by simp [hf]⟩
        | ok s' =>
          cases hc : g.conditional_edges.lookup c with
          | none =>
            obtain ⟨t, ht⟩ := ih (dictGet g.edges c) s' (log ++ [c])
            exact ⟨[c] ++ t, by simp [hf, hc, ht]⟩
          | some m =>
            cases hr : resolveCond c m s' with
            | error err => exact ⟨[c], by simp [hf, hc, hr]⟩
            | ok nxt =>
              obtain ⟨t, ht⟩ := ih nxt s' (log ++ [c])
              exact ⟨[c] ++ t, by simp [hf, hc, hr, ht]⟩

/-- Started on an actual node with at least one iteration of budget, the
loop's log begins with that node. -/
theorem runFrom_starts_with_cur (reg : List (String × NodeFn)) (g : Graph)
    (maxIter : Nat) :
    ∀ k c s, ∃ t,
      (runFrom reg g maxIter (k + 1) (some c) s []).execution_log = c :: t := by
  intro k c s
  simp only [runFrom]
  cases hl : reg.lookup c with
  | none => exact ⟨[], by simp⟩
  | some f =>
    cases hf : f s with
    | error msg => exact ⟨[], by simp [hf]⟩
    | ok s' =>
      cases hc : g.conditional_edges.lookup c with
      | none =>
        obtain ⟨t, ht⟩ := runFrom_log_extends reg g maxIter k (dictGet g.edges c)
          s' ([] ++ [c])
        exact ⟨t, by simpa [hf, hc] using ht⟩
      | some m =>
        cases hr : resolveCond c m s' with
        | error err => exact ⟨[], by simp [hf, hc, hr]⟩
        | ok nxt =>
          obtain ⟨t, ht⟩ := runFrom_log_extends reg g maxIter k nxt s' ([] ++ [c])
          exact ⟨t, by simpa [hf, hc, hr] using ht⟩

/-- Every traversal either completes (with no error recorded) or fails, and
in the failing case the returned final state and log are exactly the ones
produced at the failing iteration of the step semantics: after `k`
continuing iterations the loop reaches a configuration on which `stepOnce`
fails with the recorded error, state, and log. -/
theorem runFrom_failure_point (reg : List (String × NodeFn)) (g : Graph)
    (maxIter : Nat) :
    ∀ remaining cur s log,
      ((runFrom reg g maxIter remaining cur s log).status = RunStatus.completed ∧
       (runFrom reg g maxIter remaining cur s log).error = none) ∨
      (∃ err k rem2 cur2 s2 log2,
        (runFrom reg g maxIter remaining cur s log).status = RunStatus.failed ∧
        (runFrom reg g maxIter remaining cur s log).error = some err ∧
        iterSteps reg g maxIter k remaining cur s log = some (rem2, cur2, s2, log2) ∧
        stepOnce reg g maxIter rem2 cur2 s2 log2 =
          StepOut.fail err (runFrom reg g maxIter remaining cur s log).final_state
            (runFrom reg g maxIter remaining cur s log).execution_log) := by
  intro remaining
  induction remaining with
  | zero =>
    intro cur s log
    cases cur with
    | none => left; simp [runFrom]
    | some c =>
      right
      exact ⟨EngineErr.maxIterationsExceeded maxIter, 0, 0, some c, s, log,
        by simp [runFrom], by simp [runFrom], rfl, by simp [stepOnce, runFrom]⟩
  | succ n ih =>
    intro cur s log
    cases cur with
    | none => left; simp [runFrom]
    | some c =>
      cases hl : reg.lookup c with
      | none =>
        right
        exact ⟨EngineErr.nodeNotFound c, 0, n + 1, some c, s, log,
          by simp [runFrom, hl], by simp [runFrom, hl], rfl,
          by simp [stepOnce, runFrom, hl]⟩
      | some f =>
        cases hf : f s with
        | error msg =>
          right
          exact ⟨EngineErr.nodeRaised msg, 0, n + 1, some c, s, log,
            by simp [runFrom, hl, hf], by simp [runFrom, hl, hf], rfl,
            by simp [stepOnce, runFrom, hl, hf]⟩
        | ok s' =>
          cases hc : g.conditional_edges.lookup c with
          | some m =>
            cases hr : resolveCond c m s' with
            | error err =>
              right
              exact ⟨err, 0, n + 1, some c, s, log,
                by simp [runFrom, hl, hf, hc, hr],
                by simp [runFrom, hl, hf, hc, hr], rfl,
                by simp [stepOnce, runFrom, hl, hf, hc, hr]⟩
            | ok nxt =>
              have hstep : runFrom reg g maxIter (n + 1) (some c) s log =
                  runFrom reg g maxIter n nxt s' (log ++ [c]) := by
                simp [runFrom, hl, hf, hc, hr]
              rcases ih nxt s' (log ++ [c]) with hdone | ⟨err, k, rem2, cur2, s2,
                  log2, h1, h2, h3, h4⟩
              · left; rw [hstep]; exact hdone
              · right
                refine ⟨err, k + 1, rem2, cur2, s2, log2, ?_, ?_, ?_, ?_⟩
                · rw [hstep]; exact h1
                · rw [hstep]; exact h2
                · simpa [iterSteps, stepOnce, hl, hf, hc, hr] using h3
                · rw [hstep]; exact h4
          | none =>
            have hstep : runFrom reg g maxIter (n + 1) (some c) s log =
                runFrom reg g maxIter n (dictGet g.edges c) s' (log ++ [c]) := by
              simp [runFrom, hl, hf, hc]
            rcases ih (dictGet g.edges c) s' (log ++ [c]) with hdone | ⟨err, k,
                rem2, cur2, s2, log2, h1, h2, h3, h4⟩
            · left; rw [hstep]; exact hdone
            · right
              refine ⟨err, k + 1, rem2, cur2, s2, log2, ?_, ?_, ?_, ?_⟩
              · rw [hstep]; exact h1
              · rw [hstep]; exact h2
              · simpa [iterSteps, stepOnce, hl, hf, hc] using h3
              · rw [hstep]; exact h4

/-- A conditional node whose registered capability always succeeds and whose
decision always resolves back to the node itself exhausts the whole
iteration budget: the run fails with the iteration-limit error carrying the
configured limit, after appending the node once per allowed iteration. -/
theorem runFrom_self_loop (reg : List (String × NodeFn)) (g : Graph)
    (maxIter : Nat) (c : String) (m : CondMap) (f : NodeFn)
    (hc : g.conditional_edges.lookup c = some m)
    (hf : reg.lookup c = some f)
    (hloop : ∀ s, ∃ s', f s = Except.ok s' ∧
      resolveCond c m s' = Except.ok (some c)) :
    ∀ remaining s log, ∃ sF,
      runFrom reg g maxIter remaining (some c) s log =
        { status := RunStatus.failed, final_state := sF,
          execution_log := log ++ List.replicate remaining c,
          error := some (EngineErr.maxIterationsExceeded maxIter) } := by
  intro remaining
  induction remaining with
  | zero =>
    intro s log
    exact ⟨s, by simp [runFrom]⟩
  | succ n ih =>
    intro s log
    obtain ⟨s', hfs, hres⟩ := hloop s
    obtain ⟨sF, hF⟩ := ih s' (log ++ [c])
    refine ⟨sF, ?_⟩
    rw [show runFrom reg g maxIter (n + 1) (some c) s log =
        runFrom reg g maxIter n (some c) s' (log ++ [c]) by
      simp [runFrom, hf, hfs, hc, hres]]
    rw [hF]
    simp [List.replicate_succ]

/-- Traversal of a linear chain completes, appending exactly the chain to
the log, provided the chain fits in the remaining iteration budget. -/
theorem runFrom_chain (reg : List (String × NodeFn)) (g : Graph)
    (maxIter : Nat) :
    ∀ c, IsLinearChain reg g c → ∀ remaining s log, c.length ≤ remaining →
      ∃ hd tl sF, c = hd :: tl ∧
        runFrom reg g maxIter remaining (some hd) s log =
          { status := RunStatus.completed, final_state := sF,
            execution_log := log ++ c, error := none } := by
  intro c hchain
  induction hchain with
  | single n hok hcond hedge =>
    intro remaining s log hlen
    obtain ⟨f, hf, hfs⟩ := hok
    obtain ⟨s', hs'⟩ := hfs s
    cases remaining with
    | zero => simp at hlen
    | succ r =>
      refine ⟨n, [], s', rfl, ?_⟩
      rw [show runFrom reg g maxIter (r + 1) (some n) s log =
          runFrom reg g maxIter r none s' (log ++ [n]) by
        simp [runFrom, hf, hs', hcond, hedge]]
      simp [runFrom]
  | cons n m rest hok hcond hedge hchain ih =>
    intro remaining s log hlen
    obtain ⟨f, hf, hfs⟩ := hok
    obtain ⟨s', hs'⟩ := hfs s
    cases remaining with
    | zero => simp at hlen
    | succ r =>
      obtain ⟨hd, tl, sF, heq, hrun⟩ := ih r s' (log ++ [n])
        (by simp at hlen ⊢; omega)
      cases heq
      refine ⟨n, m :: rest, sF, rfl, ?_⟩
      rw [show runFrom reg g maxIter (r + 1) (some n) s log =
          runFrom reg g maxIter r (some m) s' (log ++ [n]) by
        simp [runFrom, hf, hs', hcond, hedge]]
      rw [hrun]
      simp

/-! Claim theorems. -/

/-- Claim C1 (code divergence evidence): with a conditional map in which the
resolved decision key `"stop"` is present and explicitly mapped to `null`
and a `"default"` entry also exists, the engine does NOT terminate at the
conditional node: because `cond_map.get(key)` cannot distinguish an
explicit `null` from an absent key, the `"default"` fallback fires and
traversal continues to `"other"`, so the log is `["check", "other"]` rather
than `["check"]`. -/
theorem claim_C1_default_overrides_explicit_null :
    run_graph engNull "g1" [] 10 =
      Except.ok { status := RunStatus.completed,
                  final_state := [("check", Value.vStr "stop")],
                  execution_log := ["check", "other"], error := none } := by
  rfl

/-- Claim C2: for every stored graph id, initial state, and iteration limit,
`run_graph` returns a run summary instead of propagating any traversal
failure: the result either is `completed` with no error, or is `failed`
with the error recorded, and in the failing case its final state and
execution log are exactly the ones standing at the failing iteration of the
step semantics (`stepOnce` after `k` continuing iterations). -/
theorem claim_C2_failures_contained (e : Engine) (gid : String) (s0 : State)
    (maxIter : Nat) (g : Graph) (hg : e.graphs.lookup gid = some g) :
    ∃ r, run_graph e gid s0 maxIter = Except.ok r ∧
      ((r.status = RunStatus.completed ∧ r.error = none) ∨
       (∃ err k rem2 cur2 s2 log2,
         r.status = RunStatus.failed ∧ r.error = some err ∧
         iterSteps e.node_registry g maxIter k maxIter (some g.entry_node)
           s0 [] = some (rem2, cur2, s2, log2) ∧
         stepOnce e.node_registry g maxIter rem2 cur2 s2 log2 =
           StepOut.fail err r.final_state r.execution_log)) := by
  refine ⟨runFrom e.node_registry g maxIter maxIter (some g.entry_node) s0 [],
    by simp [run_graph, get_graph, hg], ?_⟩
  exact runFrom_failure_point e.node_registry g maxIter maxIter
    (some g.entry_node) s0 []

/-- Claim C2 witness: a stored single-node graph whose capability raises. -/
theorem claim_C2_failures_contained_witness :
    ∃ r, run_graph engBoom "g2" [] 5 = Except.ok r ∧
      ((r.status = RunStatus.completed ∧ r.error = none) ∨
       (∃ err k rem2 cur2 s2 log2,
         r.status = RunStatus.failed ∧ r.error = some err ∧
         iterSteps engBoom.node_registry graphBoom 5 k 5
           (some graphBoom.entry_node) [] [] = some (rem2, cur2, s2, log2) ∧
         stepOnce engBoom.node_registry graphBoom 5 rem2 cur2 s2 log2 =
           StepOut.fail err r.final_state r.execution_log)) :=
  claim_C2_failures_contained engBoom "g2" [] 5 graphBoom rfl

/-- Claim C3: a conditional node whose decision always routes back to itself
makes `run_graph` fail with the iteration-limit error carrying the
configured limit, and at that point the execution log has length exactly
`maxIter` (the counter is checked before the node is appended again). -/
theorem claim_C3_self_loop_hits_iteration_limit (e : Engine) (gid : String)
    (s0 : State) (maxIter : Nat) (g : Graph) (c : String) (m : CondMap)
    (f : NodeFn)
    (hg : e.graphs.lookup gid = some g)
    (hentry : g.entry_node = c)
    (hc : g.conditional_edges.lookup c = some m)
    (hf : e.node_registry.lookup c = some f)
    (hloop : ∀ s, ∃ s', f s = Except.ok s' ∧
      resolveCond c m s' = Except.ok (some c)) :
    ∃ r, run_graph e gid s0 maxIter = Except.ok r ∧
      r.status = RunStatus.failed ∧
      r.error = some (EngineErr.maxIterationsExceeded maxIter) ∧
      r.execution_log.length = maxIter := by
  obtain ⟨sF, hF⟩ := runFrom_self_loop e.node_registry g maxIter c m f hc hf
    hloop maxIter s0 []
  refine ⟨{ status := RunStatus.failed, final_state := sF,
            execution_log := [] ++ List.replicate maxIter c,
            error := some (EngineErr.maxIterationsExceeded maxIter) },
    ?_, rfl, rfl, by simp⟩
  simp only [run_graph, get_graph, hg, hentry, hF]

/-- Claim C3 witness: the self-looping graph `graphLoop` with limit 3. -/
theorem claim_C3_self_loop_hits_iteration_limit_witness :
    ∃ r, run_graph engLoop "g3" [] 3 = Except.ok r ∧
      r.status = RunStatus.failed ∧
      r.error = some (EngineErr.maxIterationsExceeded 3) ∧
      r.execution_log.length = 3 :=
  claim_C3_self_loop_hits_iteration_limit engLoop "g3" [] 3 graphLoop "check"
    [("loop", some "check")] fnSetLoop rfl rfl rfl rfl
    (fun s => ⟨("check", Value.vStr "loop") :: s, rfl, by
      simp [resolveCond, stateGet, List.lookup, resolveKey, strOfValue,
        condSelect, dictGet, condHasKey]⟩)

/-- Claim C4: when a reached conditional node leaves its own decision key
unset (the post-invocation state reads `None` under its name), the run
fails with the missing-decision error naming the node and the log is the
nodes visited so far plus that node, if the conditional map has no
`"default"` entry; with a `"default"` entry, the default branch is taken
and the run does not fail at that step. -/
theorem claim_C4_missing_decision (reg : List (String × NodeFn)) (g : Graph)
    (maxIter r : Nat) (cur : String) (s : State) (log : List String)
    (m : CondMap) (f : NodeFn) (s' : State)
    (hc : g.conditional_edges.lookup cur = some m)
    (hf : reg.lookup cur = some f)
    (hs : f s = Except.ok s')
    (hnone : stateGet s' cur = Value.vNone) :
    (condHasKey m "default" = false →
      runFrom reg g maxIter (r + 1) (some cur) s log =
        { status := RunStatus.failed, final_state := s',
          execution_log := log ++ [cur],
          error := some (EngineErr.missingDecision cur) }) ∧
    (condHasKey m "default" = true →
      runFrom reg g maxIter (r + 1) (some cur) s log =
        runFrom reg g maxIter r (dictGet m "default") s' (log ++ [cur])) := by
  constructor
  · intro hk
    have hres : resolveCond cur m s' =
        Except.error (EngineErr.missingDecision cur) := by
      simp [resolveCond, hnone, resolveKey, hk]
    simp [runFrom, hf, hs, hc, hres]
  · intro hk
    have hres : resolveCond cur m s' = Except.ok (dictGet m "default") := by
      simp [resolveCond, hnone, resolveKey, hk, condSelect_default m hk]
    simp [runFrom, hf, hs, hc, hres]

/-- Claim C4 witness: the no-default map fails with the missing-decision
error, and the map with a `"default"` entry proceeds along the default. -/
theorem claim_C4_missing_decision_witness :
    runFrom [("c", fnId)] graphNoDec 10 (2 + 1) (some "c") [] [] =
      { status := RunStatus.failed, final_state := [],
        execution_log := ["c"],
        error := some (EngineErr.missingDecision "c") } ∧
    runFrom [("c", fnId)] graphDefDec 10 (2 + 1) (some "c") [] [] =
      runFrom [("c", fnId)] graphDefDec 10 2
        (dictGet [("x", some "y"), ("default", none)] "default") [] ["c"] :=
  ⟨(claim_C4_missing_decision [("c", fnId)] graphNoDec 10 2 "c" [] []
      [("x", some "y")] fnId [] rfl rfl rfl rfl).1 rfl,
   (claim_C4_missing_decision [("c", fnId)] graphDefDec 10 2 "c" [] []
      [("x", some "y"), ("default", none)] fnId [] rfl rfl rfl rfl).2 rfl⟩

/-- Claim C5: a boolean decision value resolves through the literal string
keys `"true"`/`"false"` of the conditional map — the stringify rule (which
would produce Python's `"True"`/`"False"`) is never consulted for booleans,
whatever other keys the map contains. -/
theorem claim_C5_boolean_literal_keys (m : CondMap) (cur : String) (s : State)
    (b : Bool) (h : stateGet s cur = Value.vBool b) :
    resolveCond cur m s =
      Except.ok (condSelect m (if b then "true" else "false")) := by
  cases b <;> simp [resolveCond, h, resolveKey]

/-- Claim C5 witness: with a map also containing the stringified key
`"True"`, the decision `True` selects the `"true"` entry. -/
theorem claim_C5_boolean_literal_keys_witness :
    resolveCond "c" mapBool [("c", Value.vBool true)] =
      Except.ok (some "right") :=
  claim_C5_boolean_literal_keys mapBool "c" [("c", Value.vBool true)] true rfl

/-- Claim C6: a graph whose entry node starts a non-repeating linear chain
ending at a node with no outgoing edge, fitting in the iteration limit,
runs to `completed` with the execution log equal to the full chain. -/
theorem claim_C6_linear_chain_completes (e : Engine) (gid : String)
    (s0 : State) (maxIter : Nat) (g : Graph) (c : List String)
    (hg : e.graphs.lookup gid = some g)
    (hhead : c.head? = some g.entry_node)
    (hnodup : c.Nodup)
    (hchain : IsLinearChain e.node_registry g c)
    (hlen : c.length ≤ maxIter) :
    ∃ r, run_graph e gid s0 maxIter = Except.ok r ∧
      r.status = RunStatus.completed ∧ r.execution_log = c := by
  obtain ⟨hd, tl, sF, heq, hrun⟩ := runFrom_chain e.node_registry g maxIter c
    hchain maxIter s0 [] hlen
  subst heq
  have hhd : g.entry_node = hd := by simpa using hhead.symm
  refine ⟨{ status := RunStatus.completed, final_state := sF,
            execution_log := hd :: tl, error := none }, ?_, rfl, rfl⟩
  rw [show run_graph e gid s0 maxIter =
      Except.ok (runFrom e.node_registry g maxIter maxIter
        (some g.entry_node) s0 []) by simp [run_graph, get_graph, hg]]
  rw [hhd, hrun]
  simp

/-- Claim C6 witness: the concrete two-node chain `A → B` of `graphAB`. -/
theorem claim_C6_linear_chain_completes_witness :
    ∃ r, run_graph engAB "g6" [] 100 = Except.ok r ∧
      r.status = RunStatus.completed ∧ r.execution_log = ["A", "B"] :=
  claim_C6_linear_chain_completes engAB "g6" [] 100 graphAB ["A", "B"]
    rfl rfl (by decide)
    (IsLinearChain.cons "A" "B" [] ⟨fnId, rfl, fun s => ⟨s, rfl⟩⟩ rfl rfl
      (IsLinearChain.single "B"
        ⟨fnSetDone, rfl, fun s => ⟨("done", Value.vBool true) :: s, rfl⟩⟩
        rfl rfl))
    (by decide)

/-- Helper: no definition error changes the graph store — `create_graph`
returns the engine unchanged whenever it returns an error. -/
theorem create_graph_error_preserves (e : Engine) (freshId : String)
    (req : GraphCreateRequest) (err : EngineErr)
    (herr : (create_graph e freshId req).1 = Except.error err) :
    (create_graph e freshId req).2 = e := by
  by_cases hmiss :
      req.nodes.filter (fun n => (e.node_registry.lookup n).isNone) = []
  · by_cases hentry : req.entry_node ∈ req.nodes
    · simp [create_graph, hmiss, hentry] at herr
    · simp [create_graph, hmiss, hentry]
  · simp [create_graph, hmiss]

/-- Claim C7: for a valid definition (every declared node registered, entry
node among the declared nodes), `create_graph` succeeds and `get_graph` on
the produced id returns a graph with exactly the submitted entry node, node
set, linear edges, and conditional edges (round-trip). -/
theorem claim_C7_create_get_roundtrip (e : Engine) (freshId : String)
    (req : GraphCreateRequest)
    (hreg : ∀ n ∈ req.nodes, (e.node_registry.lookup n).isSome)
    (hentry : req.entry_node ∈ req.nodes) :
    ∃ g, (create_graph e freshId req).1 = Except.ok g ∧
      get_graph (create_graph e freshId req).2 freshId = Except.ok g ∧
      g.entry_node = req.entry_node ∧ g.nodes = req.nodes ∧
      g.edges = req.edges ∧
      g.conditional_edges = req.conditional_edges.getD [] := by
  have hmiss :
      req.nodes.filter (fun n => (e.node_registry.lookup n).isNone) = [] := by
    rw [List.filter_eq_nil_iff]
    intro n hn
    have h := hreg n hn
    cases ho : e.node_registry.lookup n with
    | none => rw [ho] at h; simp at h
    | some f => simp [ho]
  refine ⟨{ id := freshId, name := req.name, entry_node := req.entry_node,
            nodes := req.nodes, edges := req.edges,
            conditional_edges := req.conditional_edges.getD [] },
    ?_, ?_, rfl, rfl, rfl, rfl⟩
  · simp [create_graph, hmiss, hentry]
  · simp [create_graph, hmiss, hentry, get_graph, List.lookup]

/-- Claim C7 witness: the valid request `reqAB` against `engAB`'s
registry. -/
theorem claim_C7_create_get_roundtrip_witness :
    ∃ g, (create_graph engAB "g7" reqAB).1 = Except.ok g ∧
      get_graph (create_graph engAB "g7" reqAB).2 "g7" = Except.ok g ∧
      g.entry_node = reqAB.entry_node ∧ g.nodes = reqAB.nodes ∧
      g.edges = reqAB.edges ∧
      g.conditional_edges = reqAB.conditional_edges.getD [] :=
  claim_C7_create_get_roundtrip engAB "g7" reqAB (by decide) (by decide)

/-- Claim C8: when some declared nodes are unregistered, `create_graph`
fails with an error listing all of the missing names (the whole filter of
the declared list, not just the first hit) — and it does so before the
entry-node check, since no validity assumption on the entry node is needed;
moreover on any definition error the store is untouched and a subsequent
`get_graph` for the id that would have been produced still fails. -/
theorem claim_C8_all_missing_nothing_stored (e : Engine) (freshId : String)
    (req : GraphCreateRequest) :
    (req.nodes.filter (fun n => (e.node_registry.lookup n).isNone) ≠ [] →
      (create_graph e freshId req).1 = Except.error (EngineErr.unknownNodes
        (req.nodes.filter (fun n => (e.node_registry.lookup n).isNone)))) ∧
    (∀ err, (create_graph e freshId req).1 = Except.error err →
      (create_graph e freshId req).2 = e) ∧
    (∀ err, (create_graph e freshId req).1 = Except.error err →
      e.graphs.lookup freshId = none →
      get_graph (create_graph e freshId req).2 freshId =
        Except.error (EngineErr.graphNotFound freshId)) := by
  refine ⟨?_, ?_, ?_⟩
  · intro hne
    simp [create_graph, hne]
  · intro err herr
    exact create_graph_error_preserves e freshId req err herr
  · intro err herr hlook
    rw [create_graph_error_preserves e freshId req err herr]
    simp [get_graph, hlook]

/-- Claim C8 witness: `reqBad` declares the unregistered nodes `"X"` and
`"Y"` (and a bad entry node); the error lists both, nothing is stored, and
the would-be id is not retrievable. -/
theorem claim_C8_all_missing_nothing_stored_witness :
    (create_graph engAB "g8" reqBad).1 =
      Except.error (EngineErr.unknownNodes ["X", "Y"]) ∧
    (create_graph engAB "g8" reqBad).2 = engAB ∧
    get_graph (create_graph engAB "g8" reqBad).2 "g8" =
      Except.error (EngineErr.graphNotFound "g8") :=
  ⟨(claim_C8_all_missing_nothing_stored engAB "g8" reqBad).1 (by decide),
   (claim_C8_all_missing_nothing_stored engAB "g8" reqBad).2.1
     (EngineErr.unknownNodes ["X", "Y"])
     ((claim_C8_all_missing_nothing_stored engAB "g8" reqBad).1 (by decide)),
   (claim_C8_all_missing_nothing_stored engAB "g8" reqBad).2.2
     (EngineErr.unknownNodes ["X", "Y"])
     ((claim_C8_all_missing_nothing_stored engAB "g8" reqBad).1 (by decide))
     rfl⟩

/-- Claim C9: for every stored graph and any limit of at least one
iteration, the resulting run's execution log is non-empty and starts with
the graph's entry node, whether the run completes or fails. -/
theorem claim_C9_log_starts_with_entry (e : Engine) (gid : String)
    (s0 : State) (maxIter : Nat) (g : Graph)
    (hg : e.graphs.lookup gid = some g) (hpos : 1 ≤ maxIter) :
    ∃ r, run_graph e gid s0 maxIter = Except.ok r ∧
      r.execution_log ≠ [] ∧
      r.execution_log.head? = some g.entry_node := by
  cases maxIter with
  | zero => omega
  | succ k =>
    obtain ⟨t, ht⟩ := runFrom_starts_with_cur e.node_registry g (k + 1) k
      g.entry_node s0
    refine ⟨runFrom e.node_registry g (k + 1) (k + 1) (some g.entry_node)
      s0 [], by simp [run_graph, get_graph, hg], ?_, ?_⟩
    · rw [ht]; simp
    · rw [ht]; rfl

/-- Claim C9 witness: `graphAB` with the minimum limit 1 (the run fails at
the limit, yet the log starts with the entry node `A`). -/
theorem claim_C9_log_starts_with_entry_witness :
    ∃ r, run_graph engAB "g6" [] 1 = Except.ok r ∧
      r.execution_log ≠ [] ∧
      r.execution_log.head? = some graphAB.entry_node :=
  claim_C9_log_starts_with_entry engAB "g6" [] 1 graphAB rfl (by decide)

/-- Claim C10: a decision value explicitly set to `None` under the node's
name is indistinguishable from the key being absent: conditional resolution
gives the same outcome on both states, namely the `"default"` target when
the map has a `"default"` entry and the missing-decision error naming the
node otherwise. -/
theorem claim_C10_explicit_none_equals_absent (m : CondMap) (cur : String)
    (s1 s2 : State)
    (h1 : s1.lookup cur = some Value.vNone)
    (h2 : s2.lookup cur = none) :
    resolveCond cur m s1 = resolveCond cur m s2 ∧
    resolveCond cur m s1 =
      (if condHasKey m "default" then Except.ok (dictGet m "default")
       else Except.error (EngineErr.missingDecision cur)) := by
  have g1 : stateGet s1 cur = Value.vNone := by simp [stateGet, h1]
  have g2 : stateGet s2 cur = Value.vNone := by simp [stateGet, h2]
  constructor
  · simp [resolveCond, g1, g2]
  · cases hk : condHasKey m "default" with
    | false => simp [resolveCond, g1, resolveKey, hk]
    | true => simp [resolveCond, g1, resolveKey, hk, condSelect_default m hk]

/-- Claim C10 witness: the state binding `c` to `None` and the empty state
resolve identically, to the `"default"` target. -/
theorem claim_C10_explicit_none_equals_absent_witness :
    resolveCond "c" [("default", some "d")] [("c", Value.vNone)] =
      resolveCond "c" [("default", some "d")] [] ∧
    resolveCond "c" [("default", some "d")] [("c", Value.vNone)] =
      (if condHasKey [("default", some "d")] "default"
       then Except.ok (dictGet [("default", some "d")] "default")
       else Except.error (EngineErr.missingDecision "c")) :=
  claim_C10_explicit_none_equals_absent [("default", some "d")] "c"
    [("c", Value.vNone)] [] rfl rfl

end AIWorkflow
